import Mathlib

/-!
Shallow embedding of the client-side tabular view model of
`src/app/app.component.ts` (class `AppComponent`): record shapes, the
filter/sort read path, the sort-state mutators, the win-percentage
aggregate, the fantasy-owner assignment operations and the data-load
handlers.  JavaScript numbers are modelled as rationals, JS `undefined`
propagation through dynamic field lookup by an explicit `JSVal` type,
and the (stable) `Array.prototype.sort` by insertion sort over the JS
three-way comparator.
-/

namespace AppComponent

/-- Sort direction: the component field `sortDirection : 'asc' | 'desc'`. -/
inductive SortDir where
  | asc
  | desc
deriving DecidableEq, Repr

/-- Value of a dynamic property lookup `record[field]` in JavaScript:
a string, a number, or `undefined` when the record has no such field. -/
inductive JSVal where
  | str (s : String)
  | num (q : Rat)
  | undef
deriving DecidableEq, Repr

/-- The record shape `NHLGame` of `app.component.ts`. -/
structure NHLGame where
  team : String
  games_count : Rat
  wins : Rat
  losses : Rat
  yet_to_play : Rat
  total_goals : Rat
deriving DecidableEq, Repr

/-- The record shape `NFLPlayer` of `app.component.ts`; the optional
`fantasy_team_owner?: string` is an `Option String`. -/
structure NFLPlayer where
  name : String
  team : String
  position : String
  fantasy_points : Rat
  touchdowns : Rat
  passing_yards : Rat
  rushing_yards : Rat
  receiving_yards : Rat
  receptions : Rat
  tackles : Rat
  sacks : Rat
  interceptions : Rat
  fantasy_team_owner : Option String
deriving DecidableEq, Repr

/-- The mutable state of the `AppComponent` instance that the claims
touch: the two data subjects' current values, the search term, the sort
field and direction, the selected sport and owner, and the loading flag. -/
structure AppState where
  selectedSport : String
  searchTerm : String
  sortBy : String
  sortDirection : SortDir
  selectedOwner : String
  isLoading : Bool
  nhlRows : List NHLGame
  nflRows : List NFLPlayer
deriving DecidableEq, Repr

/-- Dynamic lookup `game[field]` for an `NHLGame`; a name that is not a
field of the interface yields `undefined`. -/
def nhlField (g : NHLGame) (field : String) : JSVal :=
  if field = "team" then .str g.team
  else if field = "games_count" then .num g.games_count
  else if field = "wins" then .num g.wins
  else if field = "losses" then .num g.losses
  else if field = "yet_to_play" then .num g.yet_to_play
  else if field = "total_goals" then .num g.total_goals
  else JSVal.undef

/-- Dynamic lookup `player[field]` for an `NFLPlayer`; the optional
`fantasy_team_owner` yields `undefined` when unset, and a name that is
not a field of the interface yields `undefined`. -/
def nflField (p : NFLPlayer) (field : String) : JSVal :=
  if field = "name" then .str p.name
  else if field = "team" then .str p.team
  else if field = "position" then .str p.position
  else if field = "fantasy_points" then .num p.fantasy_points
  else if field = "touchdowns" then .num p.touchdowns
  else if field = "passing_yards" then .num p.passing_yards
  else if field = "rushing_yards" then .num p.rushing_yards
  else if field = "receiving_yards" then .num p.receiving_yards
  else if field = "receptions" then .num p.receptions
  else if field = "tackles" then .num p.tackles
  else if field = "sacks" then .num p.sacks
  else if field = "interceptions" then .num p.interceptions
  else if field = "fantasy_team_owner" then
    match p.fantasy_team_owner with
    | some s => .str s
    | none => JSVal.undef
  else JSVal.undef

/-- ASCII lowercasing of one character, the effect of JavaScript
`toLowerCase()` on the ASCII data these tables hold. -/
def lowerChar (c : Char) : Char :=
  if 65 ≤ c.toNat ∧ c.toNat ≤ 90 then Char.ofNat (c.toNat + 32) else c

/-- JavaScript `s.toLowerCase()` on ASCII strings. -/
def jsToLower (s : String) : String :=
  String.mk (s.data.map lowerChar)

/-- Code-unit lexicographic order on character lists, the order
JavaScript `<` uses for strings. -/
def charListLt : List Char → List Char → Bool
  | [], [] => false
  | [], _ :: _ => true
  | _ :: _, [] => false
  | a :: as, b :: bs =>
    if a < b then true else if b < a then false else charListLt as bs

/-- JavaScript `<` on strings. -/
def jsStrLt (a b : String) : Bool :=
  charListLt a.data b.data

/-- JavaScript `<` on the values that reach the comparators: numbers
compare numerically, strings lexicographically; any comparison touching
`undefined` is false (NaN semantics).  Mixed string/number operands do
not occur for a fixed field name, and are likewise false here. -/
def jsLt : JSVal → JSVal → Bool
  | .num a, .num b => a < b
  | .str a, .str b => jsStrLt a b
  | _, _ => false

/-- JavaScript `>`: mirror image of `jsLt`. -/
def jsGt (a b : JSVal) : Bool :=
  jsLt b a

/-- Is the value a string (the comparators' `typeof v === 'string'`)? -/
def JSVal.isStr : JSVal → Bool
  | .str _ => true
  | _ => false

/-- Lowercase a string value, leave any other value unchanged (the
comparators call `toLowerCase()` only on strings). -/
def lowerVal : JSVal → JSVal
  | .str s => .str (jsToLower s)
  | v => v

/-- The shared three-way comparison tail of both comparators:
ascending gives `<` → -1, `>` → 1, else 0; descending gives
`>` → -1, `<` → 1, else 0. -/
def threeWay (dir : SortDir) (a b : JSVal) : Int :=
  match dir with
  | .asc => if jsLt a b then -1 else if jsGt a b then 1 else 0
  | .desc => if jsGt a b then -1 else if jsLt a b then 1 else 0

/-- The comparator of `getFilteredAndSortedNHLData`: looks the sort
field up on both records, lowercases string values, and applies the
direction-dependent three-way comparison.  It has no `undefined`
handling of its own. -/
def nhlCompare (dir : SortDir) (field : String) (a b : NHLGame) : Int :=
  let aVal := nhlField a field
  let bVal := nhlField b field
  let p := if aVal.isStr then (lowerVal aVal, lowerVal bVal) else (aVal, bVal)
  threeWay dir p.1 p.2

/-- The comparator of `getFilteredAndSortedNFLData`: `undefined` values
are handled first (both undefined → 0, left undefined → 1, right
undefined → -1, independent of direction), then strings are lowercased
and the direction-dependent three-way comparison applies. -/
def nflCompare (dir : SortDir) (field : String) (a b : NFLPlayer) : Int :=
  let aVal := nflField a field
  let bVal := nflField b field
  if aVal = .undef ∧ bVal = .undef then 0
  else if aVal = .undef then 1
  else if bVal = .undef then -1
  else
    let p := if aVal.isStr ∧ bVal.isStr then (lowerVal aVal, lowerVal bVal)
      else (aVal, bVal)
    threeWay dir p.1 p.2

/-- Stable sort by a JS comparator, as `[...data].sort(cmp)` performs on
a consistent comparator: insertion sort placing `x` before the first `y`
with `cmp x y ≤ 0` preserves the original order of ties. -/
def jsSort (cmp : α → α → Int) (l : List α) : List α :=
  List.insertionSort (fun a b => cmp a b ≤ 0) l

/-- Does `hay` start with `needle` (character lists)? -/
def listIsStart {α : Type} [DecidableEq α] : List α → List α → Bool
  | [], _ => true
  | _ :: _, [] => false
  | a :: as, b :: bs => a = b && listIsStart as bs

/-- Does `hay` contain `needle` as a contiguous run (character lists)? -/
def listContains {α : Type} [DecidableEq α] (hay needle : List α) : Bool :=
  match hay with
  | [] => listIsStart needle []
  | _ :: t => listIsStart needle hay || listContains t needle

/-- JavaScript `hay.includes(needle)`: contiguous substring test. -/
def strContains (hay needle : String) : Bool :=
  listContains hay.toList needle.toList

/-- The filter step of `getFilteredAndSortedNHLData`: when the search
term is truthy (non-empty), keep the games whose lowercased team name
contains the lowercased search term. -/
def nhlFilterStep (s : AppState) : List NHLGame :=
  if s.searchTerm = "" then s.nhlRows
  else s.nhlRows.filter fun game =>
    strContains (jsToLower game.team) (jsToLower s.searchTerm)

/-- The filter step of `getFilteredAndSortedNFLData`: when the search
term is truthy, keep the players whose lowercased name, team or
position contains the lowercased search term. -/
def nflFilterStep (s : AppState) : List NFLPlayer :=
  if s.searchTerm = "" then s.nflRows
  else s.nflRows.filter fun player =>
    strContains (jsToLower player.name) (jsToLower s.searchTerm) ||
    strContains (jsToLower player.team) (jsToLower s.searchTerm) ||
    strContains (jsToLower player.position) (jsToLower s.searchTerm)

/-- `getFilteredAndSortedNHLData()`: filter by search term, then sort a
copy by the current sort field and direction. -/
def getFilteredAndSortedNHLData (s : AppState) : List NHLGame :=
  jsSort (nhlCompare s.sortDirection s.sortBy) (nhlFilterStep s)

/-- `getFilteredAndSortedNFLData()`: filter by search term, then sort a
copy by the current sort field and direction. -/
def getFilteredAndSortedNFLData (s : AppState) : List NFLPlayer :=
  jsSort (nflCompare s.sortDirection s.sortBy) (nflFilterStep s)

/-- State-threaded form of `getFilteredAndSortedNHLData()`: the method
reads `nhlDataSubject.value`, `searchTerm`, `sortBy` and
`sortDirection` and writes nothing, so the resulting state is the input
state. -/
def runGetFilteredAndSortedNHLData (s : AppState) :
    List NHLGame × AppState :=
  (getFilteredAndSortedNHLData s, s)

/-- State-threaded form of `getFilteredAndSortedNFLData()`. -/
def runGetFilteredAndSortedNFLData (s : AppState) :
    List NFLPlayer × AppState :=
  (getFilteredAndSortedNFLData s, s)

/-- The `sort(column)` method: clicking the current sort column toggles
the direction; clicking a new column selects it and resets the
direction to descending. -/
def sort (s : AppState) (column : String) : AppState :=
  if s.sortBy = column then
    { s with sortDirection := if s.sortDirection = .asc then .desc else .asc }
  else
    { s with sortBy := column, sortDirection := .desc }

/-- The `toggleSortDirection()` method. -/
def toggleSortDirection (s : AppState) : AppState :=
  { s with sortDirection := if s.sortDirection = .asc then .desc else .asc }

/-- `getWinPercentage(game)`: games played so far is `games_count -
yet_to_play`; positive → `wins / gamesPlayed * 100`, otherwise 0. -/
def getWinPercentage (game : NHLGame) : Rat :=
  let gamesPlayed := game.games_count - game.yet_to_play
  if gamesPlayed > 0 then game.wins / gamesPlayed * 100 else 0

/-- `addPlayerToTeam(player)`: the guard `!player.fantasy_team_owner`
is a JS falsiness test, true for `undefined` and for the empty string;
when it holds the player's owner is set to the selected owner. -/
def addPlayerToTeam (s : AppState) (player : NFLPlayer) : NFLPlayer :=
  if player.fantasy_team_owner = none ∨ player.fantasy_team_owner = some "" then
    { player with fantasy_team_owner := some s.selectedOwner }
  else
    player

/-- `removePlayerFromTeam(player)`: strict-equality guard
`player.fantasy_team_owner === this.selectedOwner`; when it holds the
owner is cleared to `undefined`. -/
def removePlayerFromTeam (s : AppState) (player : NFLPlayer) : NFLPlayer :=
  if player.fantasy_team_owner = some s.selectedOwner then
    { player with fantasy_team_owner := none }
  else
    player

/-- `getFantasyTeam()`: the players of the current snapshot assigned to
the selected owner. -/
def getFantasyTeam (s : AppState) : List NFLPlayer :=
  s.nflRows.filter fun player => player.fantasy_team_owner = some s.selectedOwner

/-- The expression `player.fantasy_team_owner || undefined` of the NFL
load path: a falsy fetched owner value (absent or the empty string) is
normalized to `undefined`. -/
def normalizeOwner : Option String → Option String
  | some s => if s = "" then none else some s
  | none => none

/-- The per-game conversion of the NHL load path: the spread plus
`Number(...)` coercions; on well-typed numeric fields the coercion is
the identity. -/
def convertNHLGame (game : NHLGame) : NHLGame :=
  { team := game.team
    games_count := game.games_count
    wins := game.wins
    losses := game.losses
    yet_to_play := game.yet_to_play
    total_goals := game.total_goals }

/-- The per-player conversion of the NFL load path: the spread plus
`Number(...)` coercions on the five listed stat fields, and the owner
normalization `fantasy_team_owner || undefined`. -/
def convertNFLPlayer (player : NFLPlayer) : NFLPlayer :=
  { player with
    fantasy_points := player.fantasy_points
    touchdowns := player.touchdowns
    passing_yards := player.passing_yards
    rushing_yards := player.rushing_yards
    receiving_yards := player.receiving_yards
    fantasy_team_owner := normalizeOwner player.fantasy_team_owner }

/-- Outcome of the HTTP fetch: the subscription's `next` payload or an
`error` signal. -/
inductive FetchOutcome (α : Type) where
  | ok (data : α)
  | err
deriving DecidableEq, Repr

/-- The `loadNHLData()` method, applied to the eventual fetch outcome:
it first pushes `[]` into the data subject, then on success stores the
converted rows and clears the loading flag, and on error only clears
the loading flag. -/
def loadNHLData (s : AppState) (outcome : FetchOutcome (List NHLGame)) :
    AppState :=
  let s := { s with nhlRows := [] }
  match outcome with
  | .ok data => { s with nhlRows := data.map convertNHLGame, isLoading := false }
  | .err => { s with isLoading := false }

/-- The `loadNFLData()` method, applied to the eventual fetch outcome;
same shape as the NHL loader, with the NFL conversion. -/
def loadNFLData (s : AppState) (outcome : FetchOutcome (List NFLPlayer)) :
    AppState :=
  let s := { s with nflRows := [] }
  match outcome with
  | .ok data => { s with nflRows := data.map convertNFLPlayer, isLoading := false }
  | .err => { s with isLoading := false }

/-- The `loadData()` method: sets the loading flag, then dispatches on
the selected sport. -/
def loadData (s : AppState)
    (nhlOutcome : FetchOutcome (List NHLGame))
    (nflOutcome : FetchOutcome (List NFLPlayer)) : AppState :=
  let s := { s with isLoading := true }
  if s.selectedSport = "nhl" then loadNHLData s nhlOutcome
  else if s.selectedSport = "nfl" then loadNFLData s nflOutcome
  else s

/-! Helper lemmas about the embedded operations. -/

/-- Membership is invariant under the stable comparator sort. -/
theorem mem_jsSort {α : Type} {cmp : α → α → Int} {l : List α} {a : α} :
    a ∈ jsSort cmp l ↔ a ∈ l := by
  unfold jsSort
  exact (List.perm_insertionSort _ l).mem_iff

/-- A comparator that never asks to move an element (every comparison is
non-positive) leaves the list order unchanged. -/
theorem jsSort_of_nonpos {α : Type} {cmp : α → α → Int}
    (h : ∀ x y, cmp x y ≤ 0) : ∀ l : List α, jsSort cmp l = l := by
  intro l
  induction l with
  | nil => rfl
  | cons x xs ih =>
    have ih2 : List.insertionSort (fun a b => cmp a b ≤ 0) xs = xs := ih
    unfold jsSort
    rw [List.insertionSort, ih2]
    cases xs with
    | nil => rfl
    | cons y ys => exact List.orderedInsert_of_le _ ys (h x y)

/-- Inserting into a list in which every flagged element already sits
after every unflagged one keeps that shape, provided the order relation
never lets a flagged element pass before an unflagged one. -/
theorem pairwise_orderedInsert {α : Type} {isU : α → Prop}
    (r : α → α → Prop) [DecidableRel r]
    (h1 : ∀ x y, isU x → ¬ isU y → ¬ r x y)
    (h2 : ∀ x y, ¬ isU x → isU y → r x y) (x : α) :
    ∀ l : List α, l.Pairwise (fun a b => isU a → isU b) →
      (l.orderedInsert r x).Pairwise (fun a b => isU a → isU b) := by
  intro l
  induction l with
  | nil =>
    intro _
    simp
  | cons y ys ih =>
    intro hp
    obtain ⟨hy, hys⟩ := List.pairwise_cons.mp hp
    by_cases hr : r x y
    · rw [List.orderedInsert_of_le _ ys hr]
      refine List.pairwise_cons.mpr ⟨?_, hp⟩
      intro z hz hxU
      have hyU : isU y := by
        by_contra hny
        exact h1 x y hxU hny hr
      rcases List.mem_cons.mp hz with hzy | hzys
      · exact hzy ▸ hyU
      · exact hy z hzys hyU
    · rw [List.orderedInsert, if_neg hr]
      refine List.pairwise_cons.mpr ⟨?_, ih hys⟩
      intro z hz hyU
      rcases (List.mem_orderedInsert _).mp hz with hzx | hzys
      · subst hzx
        by_contra hnx
        exact hr (h2 z y hnx hyU)
      · exact hy z hzys hyU

/-- The stable comparator sort puts every flagged element after every
unflagged one whenever the comparator sends flagged-vs-unflagged
comparisons strictly positive and unflagged-vs-flagged non-positive. -/
theorem pairwise_jsSort {α : Type} {isU : α → Prop} {cmp : α → α → Int}
    (h1 : ∀ x y, isU x → ¬ isU y → ¬ (cmp x y ≤ 0))
    (h2 : ∀ x y, ¬ isU x → isU y → cmp x y ≤ 0) :
    ∀ l : List α, (jsSort cmp l).Pairwise (fun a b => isU a → isU b) := by
  intro l
  induction l with
  | nil => exact List.Pairwise.nil
  | cons x xs ih =>
    exact pairwise_orderedInsert _ h1 h2 x _ ih

/-- Characterization of `listIsStart`: the haystack begins with the
needle. -/
theorem listIsStart_iff {α : Type} [DecidableEq α] :
    ∀ n h : List α, listIsStart n h = true ↔ ∃ t, h = n ++ t := by
  intro n
  induction n with
  | nil =>
    intro h
    simp [listIsStart]
  | cons a as ih =>
    intro h
    cases h with
    | nil =>
      simp [listIsStart]
    | cons b bs =>
      simp only [listIsStart, Bool.and_eq_true, decide_eq_true_eq, ih bs,
        List.cons_append, List.cons.injEq]
      constructor
      · rintro ⟨hab, t, ht⟩
        exact ⟨t, hab.symm, ht⟩
      · rintro ⟨t, hab, ht⟩
        exact ⟨hab.symm, t, ht⟩

/-- Characterization of `listContains`: the needle occurs as a
contiguous run inside the haystack. -/
theorem listContains_iff {α : Type} [DecidableEq α] :
    ∀ h n : List α, listContains h n = true ↔ ∃ l t, h = l ++ n ++ t := by
  intro h
  induction h with
  | nil =>
    intro n
    cases n with
    | nil => simp [listContains, listIsStart]
    | cons a as => simp [listContains, listIsStart]
  | cons c cs ih =>
    intro n
    simp only [listContains, Bool.or_eq_true, listIsStart_iff, ih]
    constructor
    · rintro (⟨t, ht⟩ | ⟨l, t, ht⟩)
      · exact ⟨[], t, by simpa using ht⟩
      · exact ⟨c :: l, t, by simp [ht]⟩
    · rintro ⟨l, t, ht⟩
      cases l with
      | nil =>
        exact Or.inl ⟨t, by simpa using ht⟩
      | cons c2 l2 =>
        rw [List.cons_append, List.cons_append, List.cons.injEq] at ht
        exact Or.inr ⟨l2, t, ht.2⟩

/-- The `strContains` test as a substring statement on character data. -/
theorem strContains_iff (hay needle : String) :
    strContains hay needle = true ↔
      ∃ l t, hay.data = l ++ needle.data ++ t :=
  listContains_iff hay.data needle.data

/-- An `NHLGame` field lookup is `undefined` exactly when the name is
outside the interface; in particular definedness depends only on the
field name, not on the record. -/
theorem nhlField_undef_iff (g : NHLGame) (field : String) :
    nhlField g field = .undef ↔
      field ≠ "team" ∧ field ≠ "games_count" ∧ field ≠ "wins" ∧
      field ≠ "losses" ∧ field ≠ "yet_to_play" ∧ field ≠ "total_goals" := by
  unfold nhlField
  split_ifs with h1 h2 h3 h4 h5 h6 <;> simp_all

/-- Looking up a name outside the `NFLPlayer` interface yields
`undefined`. -/
theorem nflField_eq_undef (p : NFLPlayer) (field : String)
    (h1 : field ≠ "name") (h2 : field ≠ "team") (h3 : field ≠ "position")
    (h4 : field ≠ "fantasy_points") (h5 : field ≠ "touchdowns")
    (h6 : field ≠ "passing_yards") (h7 : field ≠ "rushing_yards")
    (h8 : field ≠ "receiving_yards") (h9 : field ≠ "receptions")
    (h10 : field ≠ "tackles") (h11 : field ≠ "sacks")
    (h12 : field ≠ "interceptions") (h13 : field ≠ "fantasy_team_owner") :
    nflField p field = .undef := by
  unfold nflField
  rw [if_neg h1, if_neg h2, if_neg h3, if_neg h4, if_neg h5, if_neg h6,
    if_neg h7, if_neg h8, if_neg h9, if_neg h10, if_neg h11, if_neg h12,
    if_neg h13]

/-- On two `undefined` operands the NHL comparator returns 0. -/
theorem nhlCompare_undef (dir : SortDir) (field : String) (a b : NHLGame)
    (ha : nhlField a field = .undef) (hb : nhlField b field = .undef) :
    nhlCompare dir field a b = 0 := by
  unfold nhlCompare
  rw [ha, hb]
  cases dir <;> rfl

/-- On two `undefined` operands the NFL comparator returns 0. -/
theorem nflCompare_undef (dir : SortDir) (field : String) (a b : NFLPlayer)
    (ha : nflField a field = .undef) (hb : nflField b field = .undef) :
    nflCompare dir field a b = 0 := by
  unfold nflCompare
  rw [ha, hb]
  cases dir <;> rfl

/-! Concrete fixtures for witnesses and counterexamples. -/

/-- The component's initial property values: NFL selected, empty search
term, `fantasy_points` sort descending, the first owner selected, not
loading, and both data subjects holding `[]`. -/
def initialState : AppState :=
  { selectedSport := "nfl"
    searchTerm := ""
    sortBy := "fantasy_points"
    sortDirection := .desc
    selectedOwner := "Pretty Fly 4a Dicker Guy"
    isLoading := false
    nhlRows := []
    nflRows := [] }

/-- A sample team record. -/
def bostonGame : NHLGame :=
  { team := "Boston", games_count := 10, wins := 5, losses := 3,
    yet_to_play := 2, total_goals := 50 }

/-- A second sample team record. -/
def dallasGame : NHLGame :=
  { team := "Dallas", games_count := 10, wins := 4, losses := 4,
    yet_to_play := 2, total_goals := 40 }

/-- A third sample team record. -/
def boulderGame : NHLGame :=
  { team := "Boulder", games_count := 10, wins := 3, losses := 5,
    yet_to_play := 2, total_goals := 30 }

/-- A team record with every game still to play. -/
def zeroPlayedGame : NHLGame :=
  { team := "Utah", games_count := 10, wins := 5, losses := 5,
    yet_to_play := 10, total_goals := 20 }

/-- Another team record with no games played yet. -/
def idleGame : NHLGame :=
  { team := "Idle", games_count := 4, wins := 0, losses := 0,
    yet_to_play := 4, total_goals := 0 }

/-- A sample unassigned player record. -/
def samplePlayer : NFLPlayer :=
  { name := "Josh Allen", team := "BUF", position := "QB",
    fantasy_points := 25, touchdowns := 3, passing_yards := 300,
    rushing_yards := 40, receiving_yards := 0, receptions := 0,
    tackles := 0, sacks := 0, interceptions := 1,
    fantasy_team_owner := none }

/-- A player whose fetched owner field holds the empty string. -/
def emptyOwnerPlayer : NFLPlayer :=
  { samplePlayer with fantasy_team_owner := some "" }

/-- A state whose selected owner is the empty string. -/
def emptyOwnerState : AppState :=
  { initialState with selectedOwner := "" }

/-- A state with a different selected owner. -/
def secondOwnerState : AppState :=
  { initialState with selectedOwner := "BlevelandClowns" }

/-- A state holding data in both subjects while a fetch is in flight. -/
def preFetchState : AppState :=
  { initialState with
    nhlRows := [bostonGame]
    nflRows := [samplePlayer]
    isLoading := true }

/-- State with NHL data and a fresh filter example: search term `bo`
over team names Boston, Dallas, Boulder. -/
def filterExampleState : AppState :=
  { initialState with
    selectedSport := "nhl"
    searchTerm := "bo"
    sortBy := "total_goals"
    nhlRows := [bostonGame, dallasGame, boulderGame] }

/-- State whose sort field names no field of either record shape. -/
def unknownFieldState : AppState :=
  { initialState with
    sortBy := "bogus"
    nhlRows := [bostonGame, dallasGame]
    nflRows := [samplePlayer] }

/-- When the left lookup is `undefined` and the right one is not, the
NFL comparator returns 1. -/
theorem nflCompare_undef_left (dir : SortDir) (field : String)
    (a b : NFLPlayer) (ha : nflField a field = .undef)
    (hb : nflField b field ≠ .undef) : nflCompare dir field a b = 1 := by
  simp only [nflCompare]
  rw [ha]
  simp [hb]

/-- When the right lookup is `undefined` and the left one is not, the
NFL comparator returns -1. -/
theorem nflCompare_undef_right (dir : SortDir) (field : String)
    (a b : NFLPlayer) (ha : nflField a field ≠ .undef)
    (hb : nflField b field = .undef) : nflCompare dir field a b = -1 := by
  simp only [nflCompare]
  rw [hb]
  simp [ha]

/-! Claim theorems. -/

/-- C1 (counterexample): with a non-empty prior snapshot, a failed fetch
does not leave the stored rows as they were before the fetch was
initiated — the loaders push `[]` into the data subject before
subscribing, so the failed fetch ends with empty rows. -/
theorem fetchFailure_counterexample :
    ¬ ((loadNHLData preFetchState .err).nhlRows = preFetchState.nhlRows ∧
       (loadNFLData preFetchState .err).nflRows = preFetchState.nflRows) := by
  decide

/-- C1 (amended): when a data fetch fails, the stored rows equal the
empty list — they were cleared when the fetch was initiated, not
retained — every other state field is unchanged, and the loading flag
is not-loading. -/
theorem fetchFailure_amended (s : AppState) :
    loadNHLData s .err = { s with nhlRows := [], isLoading := false } ∧
    loadNFLData s .err = { s with nflRows := [], isLoading := false } :=
  ⟨rfl, rfl⟩

/-- C2: `sort(field)` on a fresh field selects the field and resets the
direction to descending; on the current field it flips the direction
both ways; and after a first `sort(field)` two further calls with the
same field return to the first call's state, so the direction cycles
with period 2. -/
theorem setSort_behavior (s : AppState) (field : String) :
    (field ≠ s.sortBy →
      (sort s field).sortBy = field ∧
      (sort s field).sortDirection = .desc) ∧
    (field = s.sortBy →
      (sort s field).sortBy = s.sortBy ∧
      (s.sortDirection = .asc → (sort s field).sortDirection = .desc) ∧
      (s.sortDirection = .desc → (sort s field).sortDirection = .asc)) ∧
    sort (sort (sort s field) field) field = sort s field := by
  refine ⟨?_, ?_, ?_⟩
  · intro hne
    rw [sort, if_neg (fun hh => hne hh.symm)]
    exact ⟨rfl, rfl⟩
  · intro heq
    rw [sort, if_pos heq.symm]
    refine ⟨rfl, ?_, ?_⟩ <;> intro hd <;> simp [hd]
  · by_cases h0 : s.sortBy = field
    · cases hdir : s.sortDirection <;>
        simp [sort, h0, hdir]
    · cases hdir : s.sortDirection <;>
        simp [sort, h0]

/-- C2 witness: a concrete run of the three conjuncts at the initial
state and the fresh field `touchdowns`. -/
theorem setSort_behavior_witness :
    (sort initialState "touchdowns").sortBy = "touchdowns" ∧
    (sort initialState "touchdowns").sortDirection = .desc :=
  (setSort_behavior initialState "touchdowns").1 (by decide)

/-- C5: the win percentage is `wins / (games_count - yet_to_play) * 100`
when some games have been played and exactly 0 otherwise; in particular
a team with 10 games, 5 wins and 10 remaining gets 0. -/
theorem getWinPercentage_spec (g : NHLGame) :
    (0 < g.games_count - g.yet_to_play →
      getWinPercentage g = g.wins / (g.games_count - g.yet_to_play) * 100) ∧
    (¬ 0 < g.games_count - g.yet_to_play → getWinPercentage g = 0) ∧
    getWinPercentage zeroPlayedGame = 0 := by
  refine ⟨?_, ?_, ?_⟩
  · intro h
    simp only [getWinPercentage]
    rw [if_pos h]
  · intro h
    simp only [getWinPercentage]
    rw [if_neg h]
  · simp only [getWinPercentage, zeroPlayedGame]
    norm_num

/-- C5 witness: a team with all four games still to play has win
percentage 0. -/
theorem getWinPercentage_witness : getWinPercentage idleGame = 0 :=
  (getWinPercentage_spec idleGame).2.1 (by simp [idleGame])

/-- C6: the read path is pure — running `getFilteredAndSorted*Data`
leaves the state (in particular the stored rows) unchanged, and running
it again on the resulting state returns the identical sequence. -/
theorem view_pure (s : AppState) :
    (runGetFilteredAndSortedNHLData s).2 = s ∧
    (runGetFilteredAndSortedNFLData s).2 = s ∧
    (runGetFilteredAndSortedNHLData
        ((runGetFilteredAndSortedNHLData s).2)).1 =
      (runGetFilteredAndSortedNHLData s).1 ∧
    (runGetFilteredAndSortedNFLData
        ((runGetFilteredAndSortedNFLData s).2)).1 =
      (runGetFilteredAndSortedNFLData s).1 ∧
    (runGetFilteredAndSortedNHLData s).2.nhlRows = s.nhlRows ∧
    (runGetFilteredAndSortedNFLData s).2.nflRows = s.nflRows :=
  ⟨rfl, rfl, rfl, rfl, rfl, rfl⟩

/-- C6 witness: the purity conjunction at the pre-fetch fixture state. -/
theorem view_pure_witness :
    (runGetFilteredAndSortedNHLData preFetchState).2 = preFetchState ∧
    (runGetFilteredAndSortedNFLData preFetchState).2 = preFetchState ∧
    (runGetFilteredAndSortedNHLData
        ((runGetFilteredAndSortedNHLData preFetchState).2)).1 =
      (runGetFilteredAndSortedNHLData preFetchState).1 ∧
    (runGetFilteredAndSortedNFLData
        ((runGetFilteredAndSortedNFLData preFetchState).2)).1 =
      (runGetFilteredAndSortedNFLData preFetchState).1 ∧
    (runGetFilteredAndSortedNHLData preFetchState).2.nhlRows =
      preFetchState.nhlRows ∧
    (runGetFilteredAndSortedNFLData preFetchState).2.nflRows =
      preFetchState.nflRows :=
  view_pure preFetchState

/-- C8 (counterexample): with the first selected owner the empty
string, a second `addPlayerToTeam` under a different owner does not
leave the assignment with the first owner — the falsy guard treats the
empty-string owner as unassigned and overwrites it. -/
theorem assignOwner_counterexample :
    (addPlayerToTeam secondOwnerState
        (addPlayerToTeam emptyOwnerState samplePlayer)).fantasy_team_owner ≠
      (addPlayerToTeam emptyOwnerState samplePlayer).fantasy_team_owner := by
  decide

/-- C8 (amended): `addPlayerToTeam` assigns an unset player to the
selected owner and is a no-op when the player is already assigned to a
non-empty owner name; hence a second call under a different owner
leaves the first assignment in place provided the first owner is a
non-empty string.  `removePlayerFromTeam` clears the assignment exactly
when it equals the selected owner and leaves the player unchanged
otherwise. -/
theorem assignOwner_amended (s s2 : AppState) (p : NFLPlayer) :
    (p.fantasy_team_owner = none →
      (addPlayerToTeam s p).fantasy_team_owner = some s.selectedOwner) ∧
    (∀ o, p.fantasy_team_owner = some o → o ≠ "" →
      addPlayerToTeam s p = p) ∧
    (p.fantasy_team_owner = none → s.selectedOwner ≠ "" →
      addPlayerToTeam s2 (addPlayerToTeam s p) = addPlayerToTeam s p) ∧
    removePlayerFromTeam s p =
      (if p.fantasy_team_owner = some s.selectedOwner then
        { p with fantasy_team_owner := none } else p) := by
  refine ⟨?_, ?_, ?_, ?_⟩
  · intro h
    simp [addPlayerToTeam, h]
  · intro o ho hne
    simp [addPlayerToTeam, ho, hne]
  · intro h hown
    simp [addPlayerToTeam, h, hown]
  · rfl

/-- C8 witness: assigning the sample player under the initial owner and
then again under a different owner keeps the first assignment. -/
theorem assignOwner_amended_witness :
    addPlayerToTeam secondOwnerState
        (addPlayerToTeam initialState samplePlayer) =
      addPlayerToTeam initialState samplePlayer :=
  (assignOwner_amended initialState secondOwnerState samplePlayer).2.2.1
    rfl (by decide)

/-- C10: the assignment guard is a falsiness test — a player whose
owner field holds the empty string is treated as unassigned and
overwritten — while the load path normalizes a falsy fetched owner
(absent or empty string) to `undefined`; the no-op guarantee of
`addPlayerToTeam` applies exactly to non-empty current owners. -/
theorem falsyOwnerGuard (s : AppState) (p raw : NFLPlayer) :
    (p.fantasy_team_owner = some "" →
      (addPlayerToTeam s p).fantasy_team_owner = some s.selectedOwner) ∧
    (raw.fantasy_team_owner = some "" →
      (convertNFLPlayer raw).fantasy_team_owner = none) ∧
    (raw.fantasy_team_owner = none →
      (convertNFLPlayer raw).fantasy_team_owner = none) ∧
    (∀ o, p.fantasy_team_owner = some o → o ≠ "" →
      addPlayerToTeam s p = p) := by
  refine ⟨?_, ?_, ?_, ?_⟩
  · intro h
    simp [addPlayerToTeam, h]
  · intro h
    simp [convertNFLPlayer, normalizeOwner, h]
  · intro h
    simp [convertNFLPlayer, normalizeOwner, h]
  · intro o ho hne
    simp [addPlayerToTeam, ho, hne]

/-- C10 witness: the empty-string-owned player is overwritten to the
selected owner of the acting state. -/
theorem falsyOwnerGuard_witness :
    (addPlayerToTeam secondOwnerState emptyOwnerPlayer).fantasy_team_owner =
      some secondOwnerState.selectedOwner :=
  (falsyOwnerGuard secondOwnerState emptyOwnerPlayer emptyOwnerPlayer).1 rfl

/-- C9: for a sort field naming no field of either record shape, the
read path completes with the `undefined` lookups falling into the
missing-sorts-last rule degenerately — every comparison returns 0 and
both views return the filtered rows in their stored order. -/
theorem sortFieldUnknown_safe (s : AppState)
    (hnhl : s.sortBy ∉ ["team", "games_count", "wins", "losses",
      "yet_to_play", "total_goals"])
    (hnfl : s.sortBy ∉ ["name", "team", "position", "fantasy_points",
      "touchdowns", "passing_yards", "rushing_yards", "receiving_yards",
      "receptions", "tackles", "sacks", "interceptions",
      "fantasy_team_owner"]) :
    (∀ a b, nhlCompare s.sortDirection s.sortBy a b = 0) ∧
    (∀ a b, nflCompare s.sortDirection s.sortBy a b = 0) ∧
    getFilteredAndSortedNHLData s = nhlFilterStep s ∧
    getFilteredAndSortedNFLData s = nflFilterStep s := by
  simp only [List.mem_cons, List.not_mem_nil, or_false, not_or] at hnhl hnfl
  obtain ⟨n1, n2, n3, n4, n5, n6⟩ := hnhl
  obtain ⟨m1, m2, m3, m4, m5, m6, m7, m8, m9, m10, m11, m12, m13⟩ := hnfl
  have hg : ∀ g : NHLGame, nhlField g s.sortBy = .undef := fun g =>
    (nhlField_undef_iff g s.sortBy).mpr ⟨n1, n2, n3, n4, n5, n6⟩
  have hp : ∀ p : NFLPlayer, nflField p s.sortBy = .undef := fun p =>
    nflField_eq_undef p s.sortBy m1 m2 m3 m4 m5 m6 m7 m8 m9 m10 m11 m12 m13
  have c1 : ∀ a b, nhlCompare s.sortDirection s.sortBy a b = 0 := fun a b =>
    nhlCompare_undef _ _ a b (hg a) (hg b)
  have c2 : ∀ a b, nflCompare s.sortDirection s.sortBy a b = 0 := fun a b =>
    nflCompare_undef _ _ a b (hp a) (hp b)
  exact ⟨c1, c2,
    jsSort_of_nonpos (fun x y => (c1 x y).le) (nhlFilterStep s),
    jsSort_of_nonpos (fun x y => (c2 x y).le) (nflFilterStep s)⟩

/-- C9 witness: with the sort field `bogus` both views return the
filtered rows in stored order. -/
theorem sortFieldUnknown_safe_witness :
    getFilteredAndSortedNHLData unknownFieldState =
      nhlFilterStep unknownFieldState ∧
    getFilteredAndSortedNFLData unknownFieldState =
      nflFilterStep unknownFieldState :=
  ⟨(sortFieldUnknown_safe unknownFieldState (by decide) (by decide)).2.2.1,
   (sortFieldUnknown_safe unknownFieldState (by decide) (by decide)).2.2.2⟩

/-- C3: in both sorted views, every record whose sort-field lookup is
`undefined` comes after every record with a defined value, whatever the
sort direction (the statement quantifies over all states, hence over
both directions). -/
theorem missingSortsLast (s : AppState) :
    ((getFilteredAndSortedNFLData s).Pairwise fun a b =>
      nflField a s.sortBy = .undef → nflField b s.sortBy = .undef) ∧
    ((getFilteredAndSortedNHLData s).Pairwise fun a b =>
      nhlField a s.sortBy = .undef → nhlField b s.sortBy = .undef) := by
  constructor
  · have h1 : ∀ x y : NFLPlayer, nflField x s.sortBy = .undef →
        ¬ nflField y s.sortBy = .undef →
        ¬ (nflCompare s.sortDirection s.sortBy x y ≤ 0) := by
      intro x y hx hy hle
      rw [nflCompare_undef_left s.sortDirection s.sortBy x y hx hy] at hle
      exact absurd hle (by decide)
    have h2 : ∀ x y : NFLPlayer, ¬ nflField x s.sortBy = .undef →
        nflField y s.sortBy = .undef →
        nflCompare s.sortDirection s.sortBy x y ≤ 0 := by
      intro x y hx hy
      rw [nflCompare_undef_right s.sortDirection s.sortBy x y hx hy]
      decide
    exact @pairwise_jsSort NFLPlayer
      (fun p => nflField p s.sortBy = .undef)
      (nflCompare s.sortDirection s.sortBy) h1 h2 (nflFilterStep s)
  · have huni : ∀ a b : NHLGame, nhlField a s.sortBy = .undef →
        nhlField b s.sortBy = .undef := fun a b ha =>
      (nhlField_undef_iff b s.sortBy).mpr ((nhlField_undef_iff a s.sortBy).mp ha)
    exact @pairwise_jsSort NHLGame
      (fun g => nhlField g s.sortBy = .undef)
      (nhlCompare s.sortDirection s.sortBy)
      (fun x y hx hy => absurd (huni x y hx) hy)
      (fun x y hx hy => absurd (huni y x hy) hx)
      (nhlFilterStep s)

/-- C3 witness: the missing-sorts-last shape of the NFL view at a
concrete state. -/
theorem missingSortsLast_witness :
    ((getFilteredAndSortedNFLData preFetchState).Pairwise fun a b =>
      nflField a preFetchState.sortBy = .undef →
      nflField b preFetchState.sortBy = .undef) ∧
    ((getFilteredAndSortedNHLData preFetchState).Pairwise fun a b =>
      nhlField a preFetchState.sortBy = .undef →
      nhlField b preFetchState.sortBy = .undef) :=
  missingSortsLast preFetchState

/-- C4: a record survives the filter step exactly when the search term
is empty or its lowercased searchable fields contain the lowercased
term as a contiguous substring — the team name for team records, name
or team or position for player records; and the term `bo` over team
names Boston, Dallas, Boulder keeps exactly Boston and Boulder. -/
theorem filterStep_membership (s : AppState) (g : NHLGame) (p : NFLPlayer) :
    (g ∈ nhlFilterStep s ↔ g ∈ s.nhlRows ∧ (s.searchTerm = "" ∨
      ∃ l t, (jsToLower g.team).data =
        l ++ (jsToLower s.searchTerm).data ++ t)) ∧
    (p ∈ nflFilterStep s ↔ p ∈ s.nflRows ∧ (s.searchTerm = "" ∨
      (∃ l t, (jsToLower p.name).data =
        l ++ (jsToLower s.searchTerm).data ++ t) ∨
      (∃ l t, (jsToLower p.team).data =
        l ++ (jsToLower s.searchTerm).data ++ t) ∨
      (∃ l t, (jsToLower p.position).data =
        l ++ (jsToLower s.searchTerm).data ++ t))) ∧
    (nhlFilterStep filterExampleState).map NHLGame.team =
      ["Boston", "Boulder"] := by
  refine ⟨?_, ?_, ?_⟩
  · unfold nhlFilterStep
    by_cases h : s.searchTerm = ""
    · simp [h]
    · rw [if_neg h, List.mem_filter, strContains_iff]
      simp [h]
  · unfold nflFilterStep
    by_cases h : s.searchTerm = ""
    · simp [h]
    · rw [if_neg h, List.mem_filter]
      simp only [Bool.or_eq_true, strContains_iff]
      simp [h, or_assoc]
  · decide

/-- C4 witness: the filter example evaluated through the theorem. -/
theorem filterStep_membership_witness :
    (nhlFilterStep filterExampleState).map NHLGame.team =
      ["Boston", "Boulder"] :=
  (filterStep_membership filterExampleState bostonGame samplePlayer).2.2

/-- C7: with any non-empty search term, every record of either view is
also in the corresponding view under the empty search term over the
same snapshot — filtering only ever narrows the result. -/
theorem filterMonotonic (s : AppState) (t : String) (ht : t ≠ "") :
    (∀ g : NHLGame,
      g ∈ getFilteredAndSortedNHLData { s with searchTerm := t } →
      g ∈ getFilteredAndSortedNHLData { s with searchTerm := "" }) ∧
    (∀ p : NFLPlayer,
      p ∈ getFilteredAndSortedNFLData { s with searchTerm := t } →
      p ∈ getFilteredAndSortedNFLData { s with searchTerm := "" }) := by
  constructor
  · intro g hg
    have h1 : g ∈ nhlFilterStep { s with searchTerm := t } := mem_jsSort.mp hg
    simp only [nhlFilterStep, if_neg ht] at h1
    apply mem_jsSort.mpr
    simp only [nhlFilterStep, if_pos rfl]
    exact (List.mem_filter.mp h1).1
  · intro p hp
    have h1 : p ∈ nflFilterStep { s with searchTerm := t } := mem_jsSort.mp hp
    simp only [nflFilterStep, if_neg ht] at h1
    apply mem_jsSort.mpr
    simp only [nflFilterStep, if_pos rfl]
    exact (List.mem_filter.mp h1).1

/-- C7 witness: Boston survives the `bo` filter and is also in the
unfiltered view of the same snapshot. -/
theorem filterMonotonic_witness :
    bostonGame ∈ getFilteredAndSortedNHLData
      { filterExampleState with searchTerm := "" } :=
  (filterMonotonic filterExampleState "bo" (by decide)).1 bostonGame
    (by decide)

end AppComponent
